import Mathlib

/-!
Verification of the multi-source quadrant/CAI resolution engine of the
Cuadrantes-Colombia repository.

Shallow embedding conventions:
* JavaScript strings are modelled as `List Char` (`Chars`); the regular
  expressions of the source are implemented as explicit matching functions
  with JS backtracking semantics (greedy optional groups, ordered
  alternation, leftmost match for unanchored scans).
* Network calls and other I/O performed inside a tier are modelled by
  passing the tier's outcome (`Except err (Option result)` for code that
  can throw, a plain list for loaders that swallow their own errors) as a
  parameter of the orchestrating function.
* Module-level mutable cache variables become explicit state records, and
  the stateful functions become state transformers that additionally
  report which loaders they invoked.
* `Date.now()` is modelled as a natural-number timestamp parameter.
* The floating-point Haversine formula is modelled over the real numbers.
-/

abbrev Chars := List Char

/-- ASCII digit, the `\d` character class of the source's regexes. -/
def isDigitChar (c : Char) : Bool := '0' ≤ c && c ≤ '9'

/-- ASCII uppercase letter, the `[A-Z]` character class of the source's regexes. -/
def isUpperChar (c : Char) : Bool := 'A' ≤ c && c ≤ 'Z'

/-- Whitespace recognized by JavaScript's `trim` / `\s` (common ASCII subset). -/
def isSpaceChar (c : Char) : Bool :=
  c = ' ' || c = '\t' || c = '\n' || c = '\r' || c = '\x0b' || c = '\x0c'

/-- ASCII uppercasing of one character, as `String.prototype.toUpperCase`
acts on the ASCII inputs this program feeds it. -/
def toUpperChar (c : Char) : Char :=
  if 'a' ≤ c && c ≤ 'z' then Char.ofNat (c.toNat - 32) else c

/-- Normalization `code.toUpperCase().trim()` (the source applies the two in either order;
both orders agree since uppercasing preserves whitespace). -/
def normalizeCode (l : Chars) : Chars :=
  ((l.dropWhile isSpaceChar).reverse.dropWhile isSpaceChar).reverse.map toUpperChar

/-- The value of an optional capture group, `''` when absent
(JS `x || ''`). -/
def optD (o : Option Chars) : Chars := o.getD []

/-! ### The long SIVICC grammar of `parseSIVICCCode` (bogotaSDSCJService)

Regex `^([A-Z]{5})?(MNVCC)?([CDS]\d{2})?(E\d{2})(C\d{2}|S\d{2})?(\d{6})?$`,
implemented with JS backtracking semantics: each optional group is tried
present first, absent on failure of the rest of the pattern. -/

/-- Group `([A-Z]{5})` : a five-uppercase-letter agency unit. -/
def matchUnit : Chars → Option (Chars × Chars)
  | a :: b :: c :: d :: e :: rest =>
    if isUpperChar a && isUpperChar b && isUpperChar c && isUpperChar d && isUpperChar e then
      some ([a, b, c, d, e], rest)
    else none
  | _ => none

/-- Group `(MNVCC)` : the literal model marker. -/
def matchModelo : Chars → Option (Chars × Chars)
  | 'M' :: 'N' :: 'V' :: 'C' :: 'C' :: rest => some (['M', 'N', 'V', 'C', 'C'], rest)
  | _ => none

/-- Group `([CDS]\d{2})` : a district token. -/
def matchDistrito : Chars → Option (Chars × Chars)
  | c :: d1 :: d2 :: rest =>
    if (c = 'C' || c = 'D' || c = 'S') && isDigitChar d1 && isDigitChar d2 then
      some ([c, d1, d2], rest)
    else none
  | _ => none

/-- Group `(E\d{2})` : the mandatory station token. -/
def matchStation : Chars → Option (Chars × Chars)
  | e :: d1 :: d2 :: rest =>
    if e = 'E' && isDigitChar d1 && isDigitChar d2 then some ([e, d1, d2], rest) else none
  | _ => none

/-- Group `(C\d{2}|S\d{2})` : the subunit (CAI) token. -/
def matchSub : Chars → Option (Chars × Chars)
  | c :: d1 :: d2 :: rest =>
    if (c = 'C' || c = 'S') && isDigitChar d1 && isDigitChar d2 then
      some ([c, d1, d2], rest)
    else none
  | _ => none

/-- Group `(\d{6})` : the six-digit quadrant serial. -/
def matchSerial : Chars → Option (Chars × Chars)
  | a :: b :: c :: d :: e :: f :: rest =>
    if isDigitChar a && isDigitChar b && isDigitChar c && isDigitChar d &&
       isDigitChar e && isDigitChar f then
      some ([a, b, c, d, e, f], rest)
    else none
  | _ => none

/-- Tail `(\d{6})?$` : optional serial, then the end anchor. -/
def lvlSerial (l : Chars) : Option (Option Chars) :=
  match matchSerial l with
  | some (se, rest) => if rest = [] then some (some se) else if l = [] then some none else none
  | none => if l = [] then some none else none

/-- Tail `(C\d{2}|S\d{2})?(\d{6})?$` with backtracking on the optional subunit. -/
def lvlSub (l : Chars) : Option (Option Chars × Option Chars) :=
  match matchSub l with
  | some (su, rest) =>
    match lvlSerial rest with
    | some se => some (some su, se)
    | none =>
      match lvlSerial l with
      | some se => some (none, se)
      | none => none
  | none =>
    match lvlSerial l with
    | some se => some (none, se)
    | none => none

/-- Tail `(E\d{2})(C\d{2}|S\d{2})?(\d{6})?$` : the station is mandatory. -/
def lvlStation (l : Chars) : Option (Chars × Option Chars × Option Chars) :=
  match matchStation l with
  | some (st, rest) =>
    match lvlSub rest with
    | some (su, se) => some (st, su, se)
    | none => none
  | none => none

/-- Group `([CDS]\d{2})?` then the tail, with backtracking. -/
def lvlDistrito (l : Chars) : Option (Option Chars × Chars × Option Chars × Option Chars) :=
  match matchDistrito l with
  | some (di, rest) =>
    match lvlStation rest with
    | some (st, su, se) => some (some di, st, su, se)
    | none =>
      match lvlStation l with
      | some (st, su, se) => some (none, st, su, se)
      | none => none
  | none =>
    match lvlStation l with
    | some (st, su, se) => some (none, st, su, se)
    | none => none

/-- Group `(MNVCC)?` then the tail, with backtracking. -/
def lvlModelo (l : Chars) :
    Option (Option Chars × Option Chars × Chars × Option Chars × Option Chars) :=
  match matchModelo l with
  | some (mo, rest) =>
    match lvlDistrito rest with
    | some (di, st, su, se) => some (some mo, di, st, su, se)
    | none =>
      match lvlDistrito l with
      | some (di, st, su, se) => some (none, di, st, su, se)
      | none => none
  | none =>
    match lvlDistrito l with
    | some (di, st, su, se) => some (none, di, st, su, se)
    | none => none

/-- Group `([A-Z]{5})?` then the tail, with backtracking. -/
def lvlUnidad (l : Chars) :
    Option (Option Chars × Option Chars × Option Chars × Chars × Option Chars × Option Chars) :=
  match matchUnit l with
  | some (u, rest) =>
    match lvlModelo rest with
    | some (mo, di, st, su, se) => some (some u, mo, di, st, su, se)
    | none =>
      match lvlModelo l with
      | some (mo, di, st, su, se) => some (none, mo, di, st, su, se)
      | none => none
  | none =>
    match lvlModelo l with
    | some (mo, di, st, su, se) => some (none, mo, di, st, su, se)
    | none => none

/-- The capture groups of a successful long-grammar match. -/
structure LongGroups where
  unidad : Option Chars
  modelo : Option Chars
  distrito : Option Chars
  estacion : Chars
  cai : Option Chars
  cuadrante : Option Chars
deriving DecidableEq, Repr

/-- Full match of the long SIVICC regex against a (normalized) string. -/
def longMatch (l : Chars) : Option LongGroups :=
  (lvlUnidad l).map fun g => ⟨g.1, g.2.1, g.2.2.1, g.2.2.2.1, g.2.2.2.2.1, g.2.2.2.2.2⟩

/-- The short SDSCJ grammar `^(E\d{2})(C\d{2})?$` of `parseSIVICCCode`,
returning (station, optional subunit). -/
def shortMatch : Chars → Option (Chars × Option Chars)
  | [e, d1, d2] =>
    if e = 'E' && isDigitChar d1 && isDigitChar d2 then some ([e, d1, d2], none) else none
  | [e, d1, d2, c, d3, d4] =>
    if e = 'E' && isDigitChar d1 && isDigitChar d2 && c = 'C' && isDigitChar d3 &&
       isDigitChar d4 then
      some ([e, d1, d2], some [c, d3, d4])
    else none
  | _ => none

/-- Last-resort scan `/(E\d{2})/` : the leftmost station token anywhere in
the string. -/
def scanStation : Chars → Option Chars
  | e :: d1 :: d2 :: rest =>
    if e = 'E' && isDigitChar d1 && isDigitChar d2 then some [e, d1, d2]
    else scanStation (d1 :: d2 :: rest)
  | _ => none

/-- The result record of `parseSIVICCCode` (bogotaSDSCJService). -/
structure SivParse where
  unidad : Option Chars
  modelo : Option Chars
  distrito : Option Chars
  estacion : Option Chars
  cai : Option Chars
  cuadrante : Option Chars
  estacionCAI : Option Chars
deriving DecidableEq, Repr

/-- Function `parseSIVICCCode` of bogotaSDSCJService: empty input is rejected, then
the short grammar, the long grammar and the bare-station scan are tried on
the normalized string, in that order. -/
def parseSIVICCCode (code : Chars) : Option SivParse :=
  if code = [] then none
  else
    match shortMatch (normalizeCode code) with
    | some (st, cai) =>
      some ⟨none, none, none, some st, cai, none, some (normalizeCode code)⟩
    | none =>
      match longMatch (normalizeCode code) with
      | some g =>
        some ⟨g.unidad, g.modelo, g.distrito, some g.estacion, g.cai, g.cuadrante,
          some (g.estacion ++ optD g.cai)⟩
      | none =>
        match scanStation (normalizeCode code) with
        | some st => some ⟨none, none, none, some st, none, none, none⟩
        | none => none

/-- Which of the three grammars produced the result of `parseSIVICCCode`. -/
inductive ParseBranch
  | short
  | long
  | scan
deriving DecidableEq, Repr

/-- Instrumented companion of `parseSIVICCCode` recording which grammar the
source's control flow settles on; it mirrors `parseSIVICCCode` exactly. -/
def parseSIVICCCodeBranch (code : Chars) : Option ParseBranch :=
  if code = [] then none
  else
    match shortMatch (normalizeCode code) with
    | some _ => some ParseBranch.short
    | none =>
      match longMatch (normalizeCode code) with
      | some _ => some ParseBranch.long
      | none =>
        match scanStation (normalizeCode code) with
        | some _ => some ParseBranch.scan
        | none => none

/-! ### The quadrant-code parser of `caiService` (part_005, `parseQuadrantCode`) -/

/-- The result record of `parseQuadrantCode` (caiService). -/
structure QuadParse where
  estacion : Chars
  numero : Chars
  cai : Option Chars
deriving DecidableEq, Repr

/-- Regex `^(E\d{2})-(\d{2})$` : the short WebMap form, e.g. `E01-01`. -/
def shortMatchQ : Chars → Option (Chars × Chars)
  | [e, d1, d2, h, d3, d4] =>
    if e = 'E' && isDigitChar d1 && isDigitChar d2 && h = '-' && isDigitChar d3 &&
       isDigitChar d4 then
      some ([e, d1, d2], [d3, d4])
    else none
  | _ => none

/-- Six digits making up the whole remaining string (`(\d{6})$`). -/
def sixDigitsEnd : Chars → Option Chars
  | [a, b, c, d, e, f] =>
    if isDigitChar a && isDigitChar b && isDigitChar c && isDigitChar d &&
       isDigitChar e && isDigitChar f then
      some [a, b, c, d, e, f]
    else none
  | _ => none

/-- One attempt of `(E\d{2})(C\d{2})?(\d{6})$` anchored at the head of the
list; the optional `C` group is tried present first (greedy). -/
def longQAt (l : Chars) : Option (Chars × Option Chars × Chars) :=
  match l with
  | e :: d1 :: d2 :: rest =>
    if e = 'E' && isDigitChar d1 && isDigitChar d2 then
      match rest with
      | c :: d3 :: d4 :: rest2 =>
        if c = 'C' && isDigitChar d3 && isDigitChar d4 then
          match sixDigitsEnd rest2 with
          | some se => some ([e, d1, d2], some [c, d3, d4], se)
          | none =>
            match sixDigitsEnd rest with
            | some se => some ([e, d1, d2], none, se)
            | none => none
        else
          match sixDigitsEnd rest with
          | some se => some ([e, d1, d2], none, se)
          | none => none
      | _ =>
        match sixDigitsEnd rest with
        | some se => some ([e, d1, d2], none, se)
        | none => none
    else none
  | _ => none

/-- Unanchored search for `(E\d{2})(C\d{2})?(\d{6})$` : JS regexes try each
start position left to right. -/
def longMatchQ : Chars → Option (Chars × Option Chars × Chars)
  | [] => none
  | c :: rest =>
    match longQAt (c :: rest) with
    | some r => some r
    | none => longMatchQ rest

/-- Step `numero.replace(/^0+/, '') || '0'` : strip leading zeros, defaulting to
`0` when nothing is left. -/
def stripLeadingZeros (l : Chars) : Chars :=
  match l.dropWhile (fun c => c = '0') with
  | [] => ['0']
  | r => r

/-- Step `padStart(2, '0')`. -/
def padStart2 (l : Chars) : Chars :=
  if l.length ≥ 2 then l else List.replicate (2 - l.length) '0' ++ l

/-- Function `parseQuadrantCode` of caiService: the short WebMap form first, then the
unanchored long form, then a bare-station scan. -/
def parseQuadrantCode (code : Chars) : Option QuadParse :=
  let normalized := normalizeCode code
  match shortMatchQ normalized with
  | some (st, nu) => some ⟨st, nu, none⟩
  | none =>
    match longMatchQ normalized with
    | some (st, cai, se) => some ⟨st, padStart2 (stripLeadingZeros se), cai⟩
    | none =>
      match scanStation normalized with
      | some st => some ⟨st, [], none⟩
      | none => none

/-! ### The WebMap CAI index (caiService) -/

/-- A cached WebMap CAI record (the fields relevant to correlation). -/
structure RealCAI where
  id : Chars
  nombre : Chars
  codigoCuadrante : Chars
  lat : ℚ
  lng : ℚ
deriving DecidableEq, Repr

/-- A resolved CAI location. -/
structure CAILocation where
  lat : ℚ
  lng : ℚ
  name : Chars
deriving DecidableEq, Repr

/-- Model of `parseInt(s, 10)` on the strings produced by `parseQuadrantCode`:
`none` models `NaN` (no leading digits, e.g. the empty `numero`). -/
def parseIntJS (l : Chars) : Option Nat :=
  match l.takeWhile isDigitChar with
  | [] => none
  | ds => some (ds.foldl (fun n c => 10 * n + (c.toNat - 48)) 0)

/-- Step `parsed.cai.replace('C', '')` : drop the first occurrence of `C`. -/
def dropFirstC : Chars → Chars
  | [] => []
  | c :: rest => if c = 'C' then rest else c :: dropFirstC rest

/-- The station filter of `findCAIByCuadrante`: cached entries whose own
code, parsed the same way, shares the station token. -/
def caisDeEstacion (cache : List RealCAI) (st : Chars) : List RealCAI :=
  cache.filter fun cai =>
    match parseQuadrantCode cai.codigoCuadrante with
    | some cp => cp.estacion = st
    | none => false

/-- The subunit-disambiguation loop of `findCAIByCuadrante`: the first
candidate whose `numero`, read as an integer, equals the subunit numeral. -/
def findByCaiNumero (cands : List RealCAI) (caiNumero : Option Nat) : Option RealCAI :=
  cands.find? fun cai =>
    match parseQuadrantCode cai.codigoCuadrante with
    | some cp => decide (parseIntJS cp.numero = caiNumero ∧ caiNumero ≠ none)
    | none => false

/-- Function `findCAIByCuadrante` of caiService, with the module cache made an
explicit argument (the `loadCAIs` call only refreshes that cache). -/
def findCAIByCuadrante (cache : List RealCAI) (codigoCuadrante : Chars) : Option RealCAI :=
  match parseQuadrantCode codigoCuadrante with
  | none => none
  | some parsed =>
    let cands := caisDeEstacion cache parsed.estacion
    if cands.length = 0 then none
    else if cands.length = 1 then cands.head?
    else
      match parsed.cai with
      | some caiCode =>
        match findByCaiNumero cands (parseIntJS (dropFirstC caiCode)) with
        | some cai => some cai
        | none => cands.head?
      | none => cands.head?

/-- Test `distance < minDistance` of the scan loop; `none` is the initial
`Infinity`, smaller than which everything is. -/
def ltMin (d : ℚ) : Option ℚ → Bool
  | none => true
  | some mv => decide (d < mv)

/-- The scan loop of `findNearestCAI`: carries the best candidate and its
distance (`none` is the initial `Infinity`). The distance function is a
parameter standing for turf's floating-point Haversine distance. -/
def nearestLoop (dist : ℚ → ℚ → ℚ → ℚ → ℚ) (lat lng maxKm : ℚ) :
    List RealCAI → Option RealCAI × Option ℚ → Option RealCAI × Option ℚ
  | [], acc => acc
  | cai :: rest, (best, m) =>
    if ltMin (dist lat lng cai.lat cai.lng) m && decide (dist lat lng cai.lat cai.lng ≤ maxKm)
    then nearestLoop dist lat lng maxKm rest (some cai, some (dist lat lng cai.lat cai.lng))
    else nearestLoop dist lat lng maxKm rest (best, m)

/-- Function `findNearestCAI` of caiService: the nearest cached CAI within
`maxDistanceKm`, scanning the whole cache. -/
def findNearestCAI (dist : ℚ → ℚ → ℚ → ℚ → ℚ) (cache : List RealCAI)
    (lat lng maxDistanceKm : ℚ) : Option RealCAI :=
  if cache.length = 0 then none
  else (nearestLoop dist lat lng maxDistanceKm cache (none, none)).1

/-- Step 4 of `getCAILocationForQuadrant` (caiService): the geometric
fallback tier, reached when the symbolic tiers have all missed; it queries
`findNearestCAI` with a 2 km cutoff, only when a quadrant center was
supplied. -/
def caiFallbackTier (dist : ℚ → ℚ → ℚ → ℚ → ℚ) (cache : List RealCAI)
    (quadrantCenter : Option (ℚ × ℚ)) : Option CAILocation :=
  match quadrantCenter with
  | some (lat, lng) =>
    (findNearestCAI dist cache lat lng 2).map fun c => ⟨c.lat, c.lng, c.nombre⟩
  | none => none

/-! ### `processPersonnel` (download-cais-arcgis / quadrantService)

A roster feature is modelled by its properties record (`f.properties || f`
in the source merely unwraps GeoJSON features). Absent JS fields are
`none`; `jsOr` is JS `||` on possibly-absent strings, and `jsStr` the
string interpolation of a possibly-`undefined` value. -/

structure PersonnelProps where
  EMPLEADO : Option Chars
  nombre : Option Chars
  TELEFONO : Option Chars
  telefono : Option Chars
deriving DecidableEq, Repr

/-- JS `a || b` on optional strings: `undefined` and `''` are falsy. -/
def jsOr (a b : Option Chars) : Option Chars :=
  match a with
  | some s => if s = [] then b else some s
  | none => b

/-- How a possibly-`undefined` string renders inside a template literal. -/
def jsStr (o : Option Chars) : Chars :=
  match o with
  | some s => s
  | none => "undefined".data

/-- Resolution `props.EMPLEADO || props.nombre`. -/
def empleadoOf (p : PersonnelProps) : Option Chars := jsOr p.EMPLEADO p.nombre

/-- Resolution `props.TELEFONO || props.telefono`. -/
def telefonoOf (p : PersonnelProps) : Option Chars := jsOr p.TELEFONO p.telefono

/-- The deduplication key `` `${empleado}-${telefono}` ``. -/
def personnelKey (p : PersonnelProps) : Chars :=
  jsStr (empleadoOf p) ++ '-' :: jsStr (telefonoOf p)

/-- Test `empleado && empleado !== "null"` : the truthiness test that keeps an
entry. -/
def truthyEmpleado (p : PersonnelProps) : Bool :=
  match empleadoOf p with
  | some s => !(s = []) && !(s = "null".data)
  | none => false

/-- The rank tokens of `/^(PT|SI|IT|CT|MY|TE|ST|AG)\.?\s/`. -/
def rankTokens : List Chars :=
  ["PT".data, "SI".data, "IT".data, "CT".data, "MY".data, "TE".data, "ST".data, "AG".data]

/-- Match of `/^(PT|SI|IT|CT|MY|TE|ST|AG)\.?\s/` against a name: a rank
token, an optional dot, then a whitespace character. -/
def rankMatch (name : Chars) : Option Chars :=
  rankTokens.findSome? fun tok =>
    if tok.isPrefixOf name then
      match name.drop tok.length with
      | '.' :: c :: _ => if isSpaceChar c then some tok else none
      | c :: _ => if isSpaceChar c then some tok else none
      | [] => none
    else none

/-- An output roster entry. -/
structure Officer where
  name : Chars
  phone : Chars
  initials : Chars
deriving DecidableEq, Repr

/-- The second `map` of `processPersonnel`: normalization of one surviving
entry. -/
def toOfficer (p : PersonnelProps) : Officer :=
  let name := (optD (jsOr (empleadoOf p) (some []))).map toUpperChar
  let initials :=
    match rankMatch name with
    | some tok => tok
    | none => name.take 2
  let phone :=
    match telefonoOf p with
    | some s => if !(s = []) && !(s = "0".data) then s else "S/N".data
    | none => "S/N".data
  ⟨name, phone, initials⟩

/-- The `filter` of `processPersonnel` with its `seen` set: the key is
recorded before the validity test, so an invalid first occurrence also
shadows its later duplicates. -/
def processFilter : List PersonnelProps → List Chars → List PersonnelProps
  | [], _ => []
  | p :: rest, seen =>
    if personnelKey p ∈ seen then processFilter rest seen
    else if truthyEmpleado p then p :: processFilter rest (personnelKey p :: seen)
    else processFilter rest (personnelKey p :: seen)

/-- Function `processPersonnel` of the quadrant service: deduplicate by the
`empleado-telefono` key, drop entries without a usable name, normalize the
rest. -/
def processPersonnel (features : List PersonnelProps) : List Officer :=
  (processFilter features []).map toOfficer

/-- The deduplication step alone, as the spec describes it: keep the first
occurrence of each key, preserving order. -/
def dedupFirstBy (key : PersonnelProps → Chars) :
    List PersonnelProps → List Chars → List PersonnelProps
  | [], _ => []
  | p :: rest, seen =>
    if key p ∈ seen then dedupFirstBy key rest seen
    else p :: dedupFirstBy key rest (key p :: seen)

/-! ### The TTL caches (sodaService / caiService) -/

/-- A national logical-directory record (sodaService). -/
structure DirectorioCuadrante where
  departamento : Chars
  ciudad_municipio : Chars
  unidad : Chars
  tipo_unidad : Chars
  codigo_cuadrante : Chars
  cuadrante : Chars
  numero_celular_cuadrante : Chars
deriving DecidableEq, Repr

/-- The module-level cache state of sodaService. -/
structure SodaState where
  cachedDirectorio : List DirectorioCuadrante
  directorioLoaded : Bool
  lastLoadAttempt : Nat
deriving DecidableEq, Repr

/-- sodaService's `RELOAD_INTERVAL` (one hour, in milliseconds). -/
def RELOAD_INTERVAL_SODA : Nat := 3600000

/-- Function `loadDirectorio` of sodaService as a state transformer. `now` is
`Date.now()`; `loaderResult` is what `loadDirectorioFromSODA` would return
(it returns `[]` both on a transport failure, which it catches itself, and
on an empty payload). The boolean reports whether the loader was invoked. -/
def loadDirectorio (now : Nat) (loaderResult : List DirectorioCuadrante) (st : SodaState) :
    SodaState × Bool :=
  if st.cachedDirectorio.length > 0 && decide (now - st.lastLoadAttempt < RELOAD_INTERVAL_SODA)
  then (st, false)
  else
    let st1 : SodaState := { st with lastLoadAttempt := now }
    if loaderResult.length > 0 then
      ({ st1 with cachedDirectorio := loaderResult, directorioLoaded := true }, true)
    else (st1, true)

/-- The module-level cache state of caiService. -/
structure CAIState where
  cachedCAIs : List RealCAI
  caiLoadedFromAPI : Bool
  caiLoadedFromLocal : Bool
  lastLoadAttempt : Nat
deriving DecidableEq, Repr

/-- caiService's `RELOAD_INTERVAL` (five minutes, in milliseconds). -/
def RELOAD_INTERVAL_CAI : Nat := 300000

/-- The ArcGIS step of `loadCAIs` (step 2). -/
def loadCAIsStep2 (arcgisResult : List RealCAI) (st : CAIState) (localInvoked : Bool) :
    CAIState × (Bool × Bool) :=
  if !st.caiLoadedFromAPI then
    if arcgisResult.length > 0 then
      ({ st with cachedCAIs := arcgisResult, caiLoadedFromAPI := true }, (localInvoked, true))
    else (st, (localInvoked, true))
  else (st, (localInvoked, false))

/-- Function `loadCAIs` of caiService as a state transformer. `localResult` and
`arcgisResult` are the outcomes of `loadCAIsFromLocal` and
`loadCAIsFromArcGIS` (each catches its own errors and returns `[]`). The
booleans report which of the two loaders were invoked. -/
def loadCAIs (now : Nat) (localResult arcgisResult : List RealCAI) (st : CAIState) :
    CAIState × (Bool × Bool) :=
  if st.cachedCAIs.length > 0 && decide (now - st.lastLoadAttempt < RELOAD_INTERVAL_CAI)
  then (st, (false, false))
  else
    let st1 : CAIState := { st with lastLoadAttempt := now }
    if !st1.caiLoadedFromLocal then
      if localResult.length > 0 then
        ({ st1 with cachedCAIs := localResult, caiLoadedFromLocal := true }, (true, false))
      else loadCAIsStep2 arcgisResult st1 true
    else loadCAIsStep2 arcgisResult st1 false

/-! ### `fetchQuadrantWithFallback` (quadrantService)

A geometry tier's run is `Except String (Option α)`: `.error` a thrown
error (timeout, transport, upstream), `.ok none` no containing polygon,
`.ok (some r)` a resolved quadrant. The orchestrator's `try/catch` chain
becomes `tryTier`. -/

inductive Source
  | official
  | alternative
  | offline
deriving DecidableEq, Repr

/-- One `try { ... if (result) return {...,source} } catch { }` block of
`fetchQuadrantWithFallback`. -/
def tryTier {α : Type} (t : Except String (Option α)) (src : Source)
    (next : Except String (Option (α × Source))) : Except String (Option (α × Source)) :=
  match t with
  | .ok (some r) => .ok (some (r, src))
  | .ok none => next
  | .error _ => next

/-- Function `fetchQuadrantWithFallback`: official, then alternative, then offline,
then `null`. The result's totality as an `.ok` value is proved, not built
in: every branch of `tryTier` swallows the tier's error. -/
def fetchQuadrantWithFallback {α : Type}
    (officialRes alternativeRes offlineRes : Except String (Option α)) :
    Except String (Option (α × Source)) :=
  tryTier officialRes Source.official
    (tryTier alternativeRes Source.alternative
      (tryTier offlineRes Source.offline (.ok none)))

/-- Whether a tier run yields a quadrant (`result` truthy in the source). -/
def tierSuccess {α : Type} (t : Except String (Option α)) : Bool :=
  match t with
  | .ok (some _) => true
  | _ => false

/-- The tiers `fetchQuadrantWithFallback`'s control flow actually enters,
in order: it stops at the first success (the offline tier, entered last,
is tried regardless of its own outcome). -/
def tiersTried {α : Type} (officialRes alternativeRes : Except String (Option α)) :
    List Source :=
  Source.official ::
    (if tierSuccess officialRes then []
     else Source.alternative ::
       (if tierSuccess alternativeRes then [] else [Source.offline]))

/-! ### `haversineDistance` (bogotaSDSCJService / compare-cai-locations)

The formula is idealized over the real numbers (the source computes with
IEEE doubles); `atan2` follows the `Math.atan2` convention. -/

/-- Model of `Math.atan2 y x`. -/
noncomputable def atan2 (y x : ℝ) : ℝ :=
  if 0 < x then Real.arctan (y / x)
  else if x < 0 then
    (if 0 ≤ y then Real.arctan (y / x) + Real.pi else Real.arctan (y / x) - Real.pi)
  else if 0 < y then Real.pi / 2
  else if y < 0 then -(Real.pi / 2)
  else 0

/-- The intermediate `a` of `haversineDistance` (`dLat`, `dLng` inlined). -/
noncomputable def haverA (lat1 lng1 lat2 lng2 : ℝ) : ℝ :=
  Real.sin ((lat2 - lat1) * Real.pi / 180 / 2) * Real.sin ((lat2 - lat1) * Real.pi / 180 / 2) +
    Real.cos (lat1 * Real.pi / 180) * Real.cos (lat2 * Real.pi / 180) *
      (Real.sin ((lng2 - lng1) * Real.pi / 180 / 2) * Real.sin ((lng2 - lng1) * Real.pi / 180 / 2))

/-- Function `haversineDistance(lat1, lng1, lat2, lng2)` in kilometres:
`R * c` with `R = 6371` and `c = 2 * atan2(sqrt a, sqrt (1 - a))`. -/
noncomputable def haversineDistance (lat1 lng1 lat2 lng2 : ℝ) : ℝ :=
  6371 * (2 * atan2 (Real.sqrt (haverA lat1 lng1 lat2 lng2))
    (Real.sqrt (1 - haverA lat1 lng1 lat2 lng2)))

/-- Error message used to instantiate thrown-tier outcomes in witnesses. -/
def networkErrMsg : String := "network error"

/-- Boolean test for "this entry carries dedup key `k`". -/
def hasKey (k : Chars) (p : PersonnelProps) : Bool := personnelKey p = k

/-- The accumulator invariant of the nearest-CAI scan: the held distance is
the held candidate's distance and lies within the cutoff. -/
def GoodAcc (dist : ℚ → ℚ → ℚ → ℚ → ℚ) (lat lng maxKm : ℚ) :
    Option RealCAI × Option ℚ → Prop
  | (none, m) => m = none
  | (some c, m) => m = some (dist lat lng c.lat c.lng) ∧ dist lat lng c.lat c.lng ≤ maxKm

/-- A concrete executable distance function used to instantiate the
nearest-CAI theorems on sample data. -/
def sampleDist (a b c d : ℚ) : ℚ := (a - c) * (a - c) + (b - d) * (b - d)

/-! ## Theorems -/

/-- C1: if both the official and the alternative geometry tier would
succeed, `fetchQuadrantWithFallback` returns the official tier's result
tagged `official`, and its control flow never enters the later tiers. -/
theorem C1_official_tier_priority {α : Type} (ro ra : α)
    (offlineRes : Except String (Option α)) :
    fetchQuadrantWithFallback (Except.ok (some ro)) (Except.ok (some ra)) offlineRes
        = Except.ok (some (ro, Source.official)) ∧
    tiersTried (Except.ok (some ro)) (Except.ok (some ra) : Except String (Option α))
        = [Source.official] :=
  ⟨rfl, rfl⟩

/-- C2: when no geometry tier succeeds — each one either throws (`.error`)
or finds no containing polygon (`.ok none`) — `fetchQuadrantWithFallback`
returns `.ok none`: the `null` result, with every tier error swallowed by
its `catch` block rather than propagated. -/
theorem C2_all_tiers_exhausted_returns_null {α : Type}
    (officialRes alternativeRes offlineRes : Except String (Option α))
    (ho : tierSuccess officialRes = false)
    (ha : tierSuccess alternativeRes = false)
    (hf : tierSuccess offlineRes = false) :
    fetchQuadrantWithFallback officialRes alternativeRes offlineRes = Except.ok none := by
  rcases officialRes with e | (_ | r) <;> rcases alternativeRes with e2 | (_ | r2) <;>
    rcases offlineRes with e3 | (_ | r3) <;>
    simp_all [fetchQuadrantWithFallback, tryTier, tierSuccess]

/-- Witness for C2: a thrown official tier, an empty alternative tier and a
thrown offline tier produce the `null` result. -/
theorem C2_all_tiers_exhausted_returns_null_witness :
    fetchQuadrantWithFallback (Except.error networkErrMsg) (Except.ok none)
        (Except.error networkErrMsg : Except String (Option Nat)) = Except.ok none :=
  C2_all_tiers_exhausted_returns_null _ _ _ rfl rfl rfl

/-- C6: a live (younger than its `RELOAD_INTERVAL`) non-empty cache makes
`loadDirectorio` (sodaService) and `loadCAIs` (caiService) return with the
state untouched and without invoking any loader. -/
theorem C6_live_cache_never_reloads :
    (∀ (now : Nat) (loaderResult : List DirectorioCuadrante) (st : SodaState),
        st.cachedDirectorio ≠ [] →
        now - st.lastLoadAttempt < RELOAD_INTERVAL_SODA →
        loadDirectorio now loaderResult st = (st, false)) ∧
    (∀ (now : Nat) (localResult arcgisResult : List RealCAI) (st : CAIState),
        st.cachedCAIs ≠ [] →
        now - st.lastLoadAttempt < RELOAD_INTERVAL_CAI →
        loadCAIs now localResult arcgisResult st = (st, (false, false))) := by
  constructor
  · intro now loaderResult st h1 h2
    have hl : 0 < st.cachedDirectorio.length := List.length_pos.mpr h1
    simp [loadDirectorio, hl, h2]
  · intro now localResult arcgisResult st h1 h2
    have hl : 0 < st.cachedCAIs.length := List.length_pos.mpr h1
    simp [loadCAIs, hl, h2]

/-- Witness for C6 at a concrete cached state and timestamp. -/
theorem C6_live_cache_never_reloads_witness :
    loadDirectorio 1500 []
        (⟨[⟨[], [], [], [], [], [], []⟩], true, 1000⟩ : SodaState)
      = (⟨[⟨[], [], [], [], [], [], []⟩], true, 1000⟩, false) ∧
    loadCAIs 1500 [] []
        (⟨[⟨[], [], [], 4, -74⟩], true, false, 1000⟩ : CAIState)
      = (⟨[⟨[], [], [], 4, -74⟩], true, false, 1000⟩, (false, false)) :=
  ⟨C6_live_cache_never_reloads.1 1500 [] _ (by decide) (by decide),
   C6_live_cache_never_reloads.2 1500 [] [] _ (by decide) (by decide)⟩

/-- C7: with a prior non-empty snapshot and a stale cache, a refresh whose
loader fails (yields no records — `loadDirectorioFromSODA` catches its own
errors and returns `[]`) leaves the snapshot unchanged: `loadDirectorio`
invokes the loader, updates only the attempt timestamp, and subsequent
reads still see the prior snapshot; no failure is propagated (the
transformer is total). -/
theorem C7_fail_open_on_loader_failure (now : Nat) (st : SodaState)
    (_hprior : st.cachedDirectorio ≠ [])
    (hstale : ¬ now - st.lastLoadAttempt < RELOAD_INTERVAL_SODA) :
    loadDirectorio now [] st = ({ st with lastLoadAttempt := now }, true) ∧
    ((loadDirectorio now [] st).1).cachedDirectorio = st.cachedDirectorio := by
  have h1 : loadDirectorio now [] st = ({ st with lastLoadAttempt := now }, true) := by
    simp [loadDirectorio, hstale]
  exact ⟨h1, by rw [h1]⟩

/-- Witness for C7 at a concrete stale state. -/
theorem C7_fail_open_on_loader_failure_witness :
    loadDirectorio 99999999 []
        (⟨[⟨[], [], [], [], [], [], []⟩], true, 0⟩ : SodaState)
      = (⟨[⟨[], [], [], [], [], [], []⟩], true, 99999999⟩, true) :=
  (C7_fail_open_on_loader_failure 99999999 _ (by decide) (by decide)).1

/-- Monotonicity: `arctan` of a non-negative real is non-negative. -/
theorem arctan_nonneg_of_nonneg (t : ℝ) (ht : 0 ≤ t) : 0 ≤ Real.arctan t := by
  have h := Real.arctan_strictMono.monotone ht
  simpa [Real.arctan_zero] using h

/-- Sign: `Math.atan2` of two non-negative reals is non-negative. -/
theorem atan2_nonneg (y x : ℝ) (hy : 0 ≤ y) (hx : 0 ≤ x) : 0 ≤ atan2 y x := by
  unfold atan2
  split
  · exact arctan_nonneg_of_nonneg _ (div_nonneg hy (le_of_lt (by assumption)))
  · split
    · linarith
    · split
      · positivity
      · split
        · linarith
        · exact le_refl 0

/-- The `a` term of the Haversine formula is symmetric in its two points. -/
theorem haverA_symm (lat1 lng1 lat2 lng2 : ℝ) :
    haverA lat2 lng2 lat1 lng1 = haverA lat1 lng1 lat2 lng2 := by
  unfold haverA
  rw [show (lat1 - lat2) * Real.pi / 180 / 2 = -((lat2 - lat1) * Real.pi / 180 / 2) from by ring,
    show (lng1 - lng2) * Real.pi / 180 / 2 = -((lng2 - lng1) * Real.pi / 180 / 2) from by ring]
  simp only [Real.sin_neg]
  ring

/-- The `a` term vanishes on identical points. -/
theorem haverA_self (lat lng : ℝ) : haverA lat lng lat lng = 0 := by
  simp [haverA]

/-- C10: `haversineDistance` is symmetric, non-negative, and zero on
identical coordinates. -/
theorem C10_haversine_symm_nonneg_refl (lat1 lng1 lat2 lng2 : ℝ) :
    haversineDistance lat1 lng1 lat2 lng2 = haversineDistance lat2 lng2 lat1 lng1 ∧
    0 ≤ haversineDistance lat1 lng1 lat2 lng2 ∧
    haversineDistance lat1 lng1 lat1 lng1 = 0 := by
  refine ⟨?_, ?_, ?_⟩
  · unfold haversineDistance
    rw [haverA_symm]
  · have h := atan2_nonneg (Real.sqrt (haverA lat1 lng1 lat2 lng2))
      (Real.sqrt (1 - haverA lat1 lng1 lat2 lng2)) (Real.sqrt_nonneg _) (Real.sqrt_nonneg _)
    unfold haversineDistance
    linarith
  · unfold haversineDistance
    rw [haverA_self]
    norm_num [atan2, Real.arctan_zero]

/-- C3 counterexample: the input `E15C02` is matched by both the short and
the long grammar, yet `parseSIVICCCode` settles on the short branch — the
short grammar is tried before the long one, contrary to the stated order. -/
theorem C3_counterexample_short_tried_first :
    parseSIVICCCodeBranch ("E15C02".data) = some ParseBranch.short ∧
    (shortMatch (normalizeCode ("E15C02".data))).isSome = true ∧
    (longMatch (normalizeCode ("E15C02".data))).isSome = true := by decide

/-- C3 amended: `parseSIVICCCode` attempts the short grammar first, then
the long grammar, and only as a last resort scans the string for a bare
station token; it returns `none` exactly when no grammar and no scan
yields a station. In particular an input matched by both grammars is
parsed according to the short grammar. -/
theorem C3_parser_tries_short_then_long_then_scan (code : Chars) :
    ((shortMatch (normalizeCode code)).isSome = true →
        parseSIVICCCodeBranch code = some ParseBranch.short) ∧
    ((shortMatch (normalizeCode code)).isSome = false →
        (longMatch (normalizeCode code)).isSome = true →
        parseSIVICCCodeBranch code = some ParseBranch.long) ∧
    ((shortMatch (normalizeCode code)).isSome = false →
        (longMatch (normalizeCode code)).isSome = false →
        (scanStation (normalizeCode code)).isSome = true →
        parseSIVICCCodeBranch code = some ParseBranch.scan) ∧
    ((shortMatch (normalizeCode code)).isSome = false →
        (longMatch (normalizeCode code)).isSome = false →
        (scanStation (normalizeCode code)).isSome = false →
        parseSIVICCCode code = none) := by
  by_cases hc : code = []
  · subst hc; decide
  · rcases hs : shortMatch (normalizeCode code) with _ | sv <;>
      rcases hl : longMatch (normalizeCode code) with _ | lv <;>
      rcases hsc : scanStation (normalizeCode code) with _ | scv <;>
      simp [parseSIVICCCodeBranch, parseSIVICCCode, hc, hs, hl, hsc]

/-- Witness for C3 (amended): on `E15C02` the short grammar matches and the
parser settles on the short branch. -/
theorem C3_parser_tries_short_then_long_then_scan_witness :
    (shortMatch (normalizeCode ("E15C02".data))).isSome = true ∧
    parseSIVICCCodeBranch ("E15C02".data) = some ParseBranch.short :=
  ⟨by decide, (C3_parser_tries_short_then_long_then_scan ("E15C02".data)).1 (by decide)⟩

/-- C5 counterexample: two roster entries carrying the identical
(name, phone) pair `("null", "123")` produce an empty officer list — not
"exactly one entry for that pair": the validity filter drops entries whose
name is the literal string `null` (or empty/absent) even though they were
deduplicated normally. -/
theorem C5_counterexample_null_name_pair_dropped :
    processPersonnel
        [⟨some ("null".data), none, some ("123".data), none⟩,
         ⟨some ("null".data), none, some ("123".data), none⟩] = [] := by decide

/-- Equivalence: `processFilter` is first-occurrence deduplication by the
`empleado-telefono` key followed by the name-validity filter. -/
theorem processFilter_eq_dedup_filter (fs : List PersonnelProps) (seen : List Chars) :
    processFilter fs seen = (dedupFirstBy personnelKey fs seen).filter truthyEmpleado := by
  induction fs generalizing seen with
  | nil => rfl
  | cons p rest ih =>
    unfold processFilter dedupFirstBy
    by_cases h : personnelKey p ∈ seen
    · simp [h, ih]
    · by_cases ht : truthyEmpleado p
      · simp [h, ht, ih, List.filter_cons]
      · simp [h, ht, ih, List.filter_cons]

/-- The deduplication keeps a subsequence of the input (order preserved). -/
theorem dedupFirstBy_sublist (fs : List PersonnelProps) (seen : List Chars) :
    (dedupFirstBy personnelKey fs seen).Sublist fs := by
  induction fs generalizing seen with
  | nil => simp [dedupFirstBy]
  | cons p rest ih =>
    unfold dedupFirstBy
    by_cases h : personnelKey p ∈ seen
    · simp only [h, if_true]
      exact (ih seen).trans (List.sublist_cons_self p rest)
    · simp only [h, if_false]
      exact (ih (personnelKey p :: seen)).cons₂ p

/-- The keys surviving deduplication avoid `seen` and are pairwise
distinct. -/
theorem dedupFirstBy_keys_nodup (fs : List PersonnelProps) (seen : List Chars) :
    (∀ p ∈ dedupFirstBy personnelKey fs seen, personnelKey p ∉ seen) ∧
    ((dedupFirstBy personnelKey fs seen).map personnelKey).Nodup := by
  induction fs generalizing seen with
  | nil => simp [dedupFirstBy]
  | cons p rest ih =>
    unfold dedupFirstBy
    by_cases h : personnelKey p ∈ seen
    · simpa [h] using ih seen
    · have ihh := ih (personnelKey p :: seen)
      simp only [h, if_false]
      refine ⟨?_, ?_⟩
      · intro q hq
        rcases List.mem_cons.mp hq with rfl | hq'
        · exact h
        · exact fun hmem => (ihh.1 q hq') (List.mem_cons_of_mem _ hmem)
      · simp only [List.map_cons, List.nodup_cons]
        refine ⟨?_, ihh.2⟩
        intro hmem
        rcases List.mem_map.mp hmem with ⟨q, hq, hkey⟩
        exact (ihh.1 q hq) (by rw [hkey]; exact List.mem_cons_self _ _)

/-- The survivor for a key is the first input entry with that key. -/
theorem dedupFirstBy_find_first (fs : List PersonnelProps) (seen : List Chars) (k : Chars)
    (hk : k ∉ seen) :
    (dedupFirstBy personnelKey fs seen).find? (hasKey k) = fs.find? (hasKey k) := by
  induction fs generalizing seen with
  | nil => rfl
  | cons p rest ih =>
    unfold dedupFirstBy
    by_cases h : personnelKey p ∈ seen
    · have hne : ¬ hasKey k p = true := by
        simp only [hasKey, decide_eq_true_eq]
        exact fun he => hk (he ▸ h)
      simp only [h, if_true]
      rw [ih seen hk, List.find?_cons_of_neg _ hne]
    · simp only [h, if_false]
      by_cases he : personnelKey p = k
      · have hpos : hasKey k p = true := by simp [hasKey, he]
        rw [List.find?_cons_of_pos _ hpos, List.find?_cons_of_pos _ hpos]
      · have hneg : ¬ hasKey k p = true := by simp [hasKey, he]
        have hk2 : k ∉ personnelKey p :: seen := by
          intro hmem
          rcases List.mem_cons.mp hmem with h1 | h2
          · exact he h1.symm
          · exact hk h2
        rw [List.find?_cons_of_neg _ hneg, List.find?_cons_of_neg _ hneg]
        exact ih (personnelKey p :: seen) hk2

/-- C5 amended: `processPersonnel` deduplicates by the string key
`empleado + "-" + telefono` (first occurrence of each key kept, input
order preserved) and then drops every entry whose resolved name is empty,
absent or the literal string `null` before normalizing the survivors; so
two entries with an identical (name, phone) pair yield exactly one officer
when that name is valid and none otherwise. -/
theorem C5_processPersonnel_dedups_by_key_first_seen_order (fs : List PersonnelProps) :
    processPersonnel fs
        = ((dedupFirstBy personnelKey fs []).filter truthyEmpleado).map toOfficer ∧
    (dedupFirstBy personnelKey fs []).Sublist fs ∧
    ((dedupFirstBy personnelKey fs []).map personnelKey).Nodup ∧
    ∀ k, (dedupFirstBy personnelKey fs []).find? (hasKey k) = fs.find? (hasKey k) :=
  ⟨by rw [processPersonnel, processFilter_eq_dedup_filter],
   dedupFirstBy_sublist fs [],
   (dedupFirstBy_keys_nodup fs []).2,
   fun k => dedupFirstBy_find_first fs [] k (List.not_mem_nil k)⟩

/-- C8 counterexample: querying `E10` (station, no subunit) against a
WebMap cache holding `E10-21` before `E10-01` returns the `E10-21` entry —
the first candidate in cache order — although the cache contains a
lower-numbered candidate (`E10-01`, numeral 1 < 21) for the same station. -/
theorem C8_counterexample_first_not_lowest :
    parseQuadrantCode ("E10".data) = some ⟨"E10".data, [], none⟩ ∧
    (caisDeEstacion
        [⟨"1".data, "CAI A".data, "E10-21".data, 4, -74⟩,
         ⟨"2".data, "CAI B".data, "E10-01".data, 5, -74⟩] ("E10".data)).length = 2 ∧
    findCAIByCuadrante
        [⟨"1".data, "CAI A".data, "E10-21".data, 4, -74⟩,
         ⟨"2".data, "CAI B".data, "E10-01".data, 5, -74⟩] ("E10".data)
      = some ⟨"1".data, "CAI A".data, "E10-21".data, 4, -74⟩ ∧
    (parseQuadrantCode ("E10-21".data)).map QuadParse.numero = some ("21".data) ∧
    (parseQuadrantCode ("E10-01".data)).map QuadParse.numero = some ("01".data) := by
  decide

/-- C8 amended: in the WebMap index tier, when the query parses to a
station with no subunit disambiguator and more than one cached CAI shares
that station, `findCAIByCuadrante` returns the first matching candidate in
cache order (which is the lowest-numbered one only if the cache happens to
be so ordered). -/
theorem C8_station_only_returns_first_cached_candidate (cache : List RealCAI) (code : Chars)
    (parsed : QuadParse)
    (hp : parseQuadrantCode code = some parsed)
    (hcai : parsed.cai = none)
    (hlen : 1 < (caisDeEstacion cache parsed.estacion).length) :
    findCAIByCuadrante cache code = (caisDeEstacion cache parsed.estacion).head? := by
  unfold findCAIByCuadrante
  rw [hp]
  have h0 : ¬ (caisDeEstacion cache parsed.estacion).length = 0 := by omega
  have h1 : ¬ (caisDeEstacion cache parsed.estacion).length = 1 := by omega
  simp [h0, h1, hcai]

/-- Witness for C8 (amended) at the two-entry cache of the counterexample. -/
theorem C8_station_only_returns_first_cached_candidate_witness :
    findCAIByCuadrante
        [⟨"1".data, "CAI A".data, "E10-21".data, 4, -74⟩,
         ⟨"2".data, "CAI B".data, "E10-01".data, 5, -74⟩] ("E10".data)
      = (caisDeEstacion
          [⟨"1".data, "CAI A".data, "E10-21".data, 4, -74⟩,
           ⟨"2".data, "CAI B".data, "E10-01".data, 5, -74⟩] ("E10".data)).head? :=
  C8_station_only_returns_first_cached_candidate _ _ ⟨"E10".data, [], none⟩
    (by decide) (by decide) (by decide)

/-- Once a best candidate is held, the scan never returns to `none`. -/
theorem nearestLoop_some_stays (dist : ℚ → ℚ → ℚ → ℚ → ℚ) (lat lng maxKm : ℚ)
    (l : List RealCAI) :
    ∀ (c : RealCAI) (m : Option ℚ),
      ∃ c2, (nearestLoop dist lat lng maxKm l (some c, m)).1 = some c2 := by
  induction l with
  | nil => intro c m; exact ⟨c, rfl⟩
  | cons x rest ih =>
    intro c m
    unfold nearestLoop
    split
    · exact ih x (some (dist lat lng x.lat x.lng))
    · exact ih c m

/-- Any returned candidate is the initial one or comes from the scanned
list. -/
theorem nearestLoop_mem (dist : ℚ → ℚ → ℚ → ℚ → ℚ) (lat lng maxKm : ℚ)
    (l : List RealCAI) :
    ∀ (b : Option RealCAI) (m : Option ℚ) (c : RealCAI),
      (nearestLoop dist lat lng maxKm l (b, m)).1 = some c → b = some c ∨ c ∈ l := by
  induction l with
  | nil => intro b m c h; exact Or.inl h
  | cons x rest ih =>
    intro b m c h
    unfold nearestLoop at h
    rcases hsplit : ltMin (dist lat lng x.lat x.lng) m &&
        decide (dist lat lng x.lat x.lng ≤ maxKm) with _ | _
    · rw [hsplit] at h
      simp only [Bool.false_eq_true, if_false] at h
      rcases ih b m c h with h1 | h2
      · exact Or.inl h1
      · exact Or.inr (List.mem_cons_of_mem _ h2)
    · rw [hsplit] at h
      simp only [if_true] at h
      rcases ih (some x) (some (dist lat lng x.lat x.lng)) c h with h1 | h2
      · exact Or.inr (Option.some_inj.mp h1 ▸ List.mem_cons_self _ _)
      · exact Or.inr (List.mem_cons_of_mem _ h2)

/-- The scan preserves the accumulator invariant. -/
theorem nearestLoop_good (dist : ℚ → ℚ → ℚ → ℚ → ℚ) (lat lng maxKm : ℚ)
    (l : List RealCAI) :
    ∀ (b : Option RealCAI) (m : Option ℚ),
      GoodAcc dist lat lng maxKm (b, m) →
      GoodAcc dist lat lng maxKm (nearestLoop dist lat lng maxKm l (b, m)) := by
  induction l with
  | nil => intro b m h; exact h
  | cons x rest ih =>
    intro b m h
    unfold nearestLoop
    rcases hsplit : ltMin (dist lat lng x.lat x.lng) m &&
        decide (dist lat lng x.lat x.lng ≤ maxKm) with _ | _
    · simp only [Bool.false_eq_true, if_false]
      exact ih b m h
    · simp only [if_true]
      have hcut : dist lat lng x.lat x.lng ≤ maxKm := by
        have h2 := (Bool.and_eq_true _ _).mp hsplit
        exact of_decide_eq_true h2.2
      exact ih (some x) (some (dist lat lng x.lat x.lng)) ⟨rfl, hcut⟩

/-- The held distance never increases along the scan. -/
theorem nearestLoop_mono (dist : ℚ → ℚ → ℚ → ℚ → ℚ) (lat lng maxKm : ℚ)
    (l : List RealCAI) :
    ∀ (b : Option RealCAI) (d : ℚ),
      ∃ d2, (nearestLoop dist lat lng maxKm l (b, some d)).2 = some d2 ∧ d2 ≤ d := by
  induction l with
  | nil => intro b d; exact ⟨d, rfl, le_refl d⟩
  | cons x rest ih =>
    intro b d
    unfold nearestLoop
    rcases hsplit : ltMin (dist lat lng x.lat x.lng) (some d) &&
        decide (dist lat lng x.lat x.lng ≤ maxKm) with _ | _
    · simp only [Bool.false_eq_true, if_false]
      exact ih b d
    · simp only [if_true]
      have hlt : dist lat lng x.lat x.lng < d := by
        have h2 := (Bool.and_eq_true _ _).mp hsplit
        exact of_decide_eq_true h2.1
      rcases ih (some x) (dist lat lng x.lat x.lng) with ⟨d2, hd2, hle⟩
      exact ⟨d2, hd2, le_trans hle (le_of_lt hlt)⟩

/-- After the scan, the held distance is at most the distance of every
scanned CAI lying within the cutoff. -/
theorem nearestLoop_min (dist : ℚ → ℚ → ℚ → ℚ → ℚ) (lat lng maxKm : ℚ)
    (l : List RealCAI) :
    ∀ (b : Option RealCAI) (m : Option ℚ) (c' : RealCAI),
      c' ∈ l → dist lat lng c'.lat c'.lng ≤ maxKm →
      ∃ d2, (nearestLoop dist lat lng maxKm l (b, m)).2 = some d2 ∧
        d2 ≤ dist lat lng c'.lat c'.lng := by
  induction l with
  | nil => intro b m c' hmem; exact absurd hmem (List.not_mem_nil c')
  | cons x rest ih =>
    intro b m c' hmem hcut
    unfold nearestLoop
    rcases List.mem_cons.mp hmem with rfl | hrest
    · rcases hsplit : ltMin (dist lat lng c'.lat c'.lng) m &&
          decide (dist lat lng c'.lat c'.lng ≤ maxKm) with _ | _
      · simp only [Bool.false_eq_true, if_false]
        have hltfalse : ltMin (dist lat lng c'.lat c'.lng) m = false := by
          rcases Bool.and_eq_false_iff.mp hsplit with h1 | h1
          · exact h1
          · exact absurd (decide_eq_true hcut) (by simp [h1])
        rcases m with _ | mv
        · exact absurd hltfalse (by simp [ltMin])
        · have hmv : mv ≤ dist lat lng c'.lat c'.lng := by
            have := of_decide_eq_false hltfalse
            linarith [not_lt.mp this]
          rcases nearestLoop_mono dist lat lng maxKm rest b mv with ⟨d2, hd2, hle⟩
          exact ⟨d2, hd2, le_trans hle hmv⟩
      · simp only [if_true]
        rcases nearestLoop_mono dist lat lng maxKm rest (some c')
            (dist lat lng c'.lat c'.lng) with ⟨d2, hd2, hle⟩
        exact ⟨d2, hd2, hle⟩
    · split
      · exact ih (some x) (some (dist lat lng x.lat x.lng)) c' hrest hcut
      · exact ih b m c' hrest hcut

/-- A `none` scan result means every scanned CAI lies beyond the cutoff. -/
theorem nearestLoop_none (dist : ℚ → ℚ → ℚ → ℚ → ℚ) (lat lng maxKm : ℚ)
    (l : List RealCAI) :
    (nearestLoop dist lat lng maxKm l (none, none)).1 = none →
    ∀ c ∈ l, ¬ dist lat lng c.lat c.lng ≤ maxKm := by
  induction l with
  | nil => intro _ c hmem; exact absurd hmem (List.not_mem_nil c)
  | cons x rest ih =>
    intro h c hmem
    unfold nearestLoop at h
    by_cases hcut : dist lat lng x.lat x.lng ≤ maxKm
    · exfalso
      have hcond : (ltMin (dist lat lng x.lat x.lng) (none : Option ℚ) &&
          decide (dist lat lng x.lat x.lng ≤ maxKm)) = true := by
        simp [ltMin, hcut]
      rw [hcond] at h
      simp only [if_true] at h
      rcases nearestLoop_some_stays dist lat lng maxKm rest x
          (some (dist lat lng x.lat x.lng)) with ⟨c2, hc2⟩
      rw [h] at hc2
      exact Option.noConfusion hc2
    · have hcond : (ltMin (dist lat lng x.lat x.lng) (none : Option ℚ) &&
          decide (dist lat lng x.lat x.lng ≤ maxKm)) = false := by
        simp [ltMin, hcut]
      rw [hcond] at h
      simp only [Bool.false_eq_true, if_false] at h
      rcases List.mem_cons.mp hmem with rfl | hrest
      · exact hcut
      · exact ih h c hrest

/-- C9: the geometric fallback tier of `getCAILocationForQuadrant` queries
`findNearestCAI` with the supplied fallback point and the 2 km cutoff; a
returned CAI comes from the cache, lies within 2 km of the point, and
minimizes the distance over the whole cache; `none` is returned exactly
when no cached CAI lies within 2 km. -/
theorem C9_nearest_cai_within_cutoff (dist : ℚ → ℚ → ℚ → ℚ → ℚ)
    (cache : List RealCAI) (lat lng : ℚ) :
    (caiFallbackTier dist cache (some (lat, lng))
        = (findNearestCAI dist cache lat lng 2).map fun c => ⟨c.lat, c.lng, c.nombre⟩) ∧
    (∀ c, findNearestCAI dist cache lat lng 2 = some c →
        c ∈ cache ∧ dist lat lng c.lat c.lng ≤ 2 ∧
        ∀ c' ∈ cache, dist lat lng c.lat c.lng ≤ dist lat lng c'.lat c'.lng) ∧
    (findNearestCAI dist cache lat lng 2 = none →
        ∀ c ∈ cache, ¬ dist lat lng c.lat c.lng ≤ 2) := by
  refine ⟨rfl, ?_, ?_⟩
  · intro c hc
    unfold findNearestCAI at hc
    split at hc
    · exact Option.noConfusion hc
    · rcases hr : nearestLoop dist lat lng 2 cache (none, none) with ⟨r1, r2⟩
      rw [hr] at hc
      simp only at hc
      subst hc
      have hg := nearestLoop_good dist lat lng 2 cache none none rfl
      rw [hr] at hg
      simp only [GoodAcc] at hg
      have hmem : c ∈ cache := by
        have h2 := nearestLoop_mem dist lat lng 2 cache none none c (by rw [hr])
        rcases h2 with h1 | h1
        · exact Option.noConfusion h1
        · exact h1
      refine ⟨hmem, hg.2, ?_⟩
      intro c' hmem'
      by_cases hcut : dist lat lng c'.lat c'.lng ≤ 2
      · rcases nearestLoop_min dist lat lng 2 cache none none c' hmem' hcut with ⟨d2, hd2, hle⟩
        rw [hr] at hd2
        simp only at hd2
        rw [hg.1] at hd2
        rw [Option.some_inj.mp hd2]
        exact hle
      · have h2 : (2 : ℚ) < dist lat lng c'.lat c'.lng := not_le.mp hcut
        linarith [hg.2]
  · intro h c hmem
    unfold findNearestCAI at h
    split at h
    · rename_i hlen
      rw [List.length_eq_zero.mp hlen] at hmem
      exact absurd hmem (List.not_mem_nil c)
    · exact nearestLoop_none dist lat lng 2 cache h c hmem

/-- Witness for C9: a single cached CAI at the query point itself is
returned, lies within 2 km, and minimizes the distance. -/
theorem C9_nearest_cai_within_cutoff_witness :
    (⟨"1".data, "CAI A".data, "E10-21".data, 4, -74⟩ : RealCAI)
        ∈ [(⟨"1".data, "CAI A".data, "E10-21".data, 4, -74⟩ : RealCAI)] ∧
    sampleDist 4 (-74) 4 (-74) ≤ 2 ∧
    ∀ c' ∈ [(⟨"1".data, "CAI A".data, "E10-21".data, 4, -74⟩ : RealCAI)],
      sampleDist 4 (-74) 4 (-74) ≤ sampleDist 4 (-74) c'.lat c'.lng :=
  (C9_nearest_cai_within_cutoff sampleDist
      [⟨"1".data, "CAI A".data, "E10-21".data, 4, -74⟩] 4 (-74)).2.1
    ⟨"1".data, "CAI A".data, "E10-21".data, 4, -74⟩
    (by norm_num [findNearestCAI, nearestLoop, ltMin, sampleDist])

/-- A successful `([A-Z]{5})` match splits the input. -/
theorem matchUnit_decomp (l a r : Chars) (h : matchUnit l = some (a, r)) :
    l = a ++ r ∧ a.length = 5 := by
  unfold matchUnit at h
  split at h
  · split at h
    · simp only [Option.some_inj, Prod.mk.injEq] at h
      obtain ⟨h1, h2⟩ := h
      subst h1
      subst h2
      exact ⟨rfl, rfl⟩
    · exact Option.noConfusion h
  · exact Option.noConfusion h

/-- A successful `(MNVCC)` match splits the input. -/
theorem matchModelo_decomp (l a r : Chars) (h : matchModelo l = some (a, r)) :
    l = a ++ r ∧ a.length = 5 := by
  unfold matchModelo at h
  split at h
  · simp only [Option.some_inj, Prod.mk.injEq] at h
    obtain ⟨h1, h2⟩ := h
    subst h1
    subst h2
    exact ⟨rfl, rfl⟩
  · exact Option.noConfusion h

/-- A successful `([CDS]\d{2})` match splits the input. -/
theorem matchDistrito_decomp (l a r : Chars) (h : matchDistrito l = some (a, r)) :
    l = a ++ r ∧ a.length = 3 := by
  unfold matchDistrito at h
  split at h
  · split at h
    · simp only [Option.some_inj, Prod.mk.injEq] at h
      obtain ⟨h1, h2⟩ := h
      subst h1
      subst h2
      exact ⟨rfl, rfl⟩
    · exact Option.noConfusion h
  · exact Option.noConfusion h

/-- A successful `(E\d{2})` match splits the input. -/
theorem matchStation_decomp (l a r : Chars) (h : matchStation l = some (a, r)) :
    l = a ++ r ∧ a.length = 3 := by
  unfold matchStation at h
  split at h
  · split at h
    · simp only [Option.some_inj, Prod.mk.injEq] at h
      obtain ⟨h1, h2⟩ := h
      subst h1
      subst h2
      exact ⟨rfl, rfl⟩
    · exact Option.noConfusion h
  · exact Option.noConfusion h

/-- A successful `(C\d{2}|S\d{2})` match splits the input. -/
theorem matchSub_decomp (l a r : Chars) (h : matchSub l = some (a, r)) :
    l = a ++ r ∧ a.length = 3 := by
  unfold matchSub at h
  split at h
  · split at h
    · simp only [Option.some_inj, Prod.mk.injEq] at h
      obtain ⟨h1, h2⟩ := h
      subst h1
      subst h2
      exact ⟨rfl, rfl⟩
    · exact Option.noConfusion h
  · exact Option.noConfusion h

/-- A successful `(\d{6})` match splits the input. -/
theorem matchSerial_decomp (l a r : Chars) (h : matchSerial l = some (a, r)) :
    l = a ++ r ∧ a.length = 6 := by
  unfold matchSerial at h
  split at h
  · split at h
    · simp only [Option.some_inj, Prod.mk.injEq] at h
      obtain ⟨h1, h2⟩ := h
      subst h1
      subst h2
      exact ⟨rfl, rfl⟩
    · exact Option.noConfusion h
  · exact Option.noConfusion h

/-- Decomposition through the serial level. -/
theorem lvlSerial_decomp (l : Chars) (se : Option Chars) (h : lvlSerial l = some se) :
    l = optD se ∧ ∀ x, se = some x → x.length = 6 := by
  unfold lvlSerial at h
  split at h
  · rename_i se0 rest heq
    split at h
    · rename_i hrest
      simp only [Option.some_inj] at h
      subst h
      obtain ⟨hd, hl⟩ := matchSerial_decomp l se0 rest heq
      constructor
      · rw [hd, hrest]
        simp [optD]
      · intro x hx
        rw [Option.some_inj.mp hx] at hl
        exact hl
    · split at h
      · rename_i hl
        simp only [Option.some_inj] at h
        subst h
        exact ⟨hl, fun x hx => Option.noConfusion hx⟩
      · exact Option.noConfusion h
  · split at h
    · rename_i hl
      simp only [Option.some_inj] at h
      subst h
      exact ⟨hl, fun x hx => Option.noConfusion hx⟩
    · exact Option.noConfusion h

/-- Decomposition through the subunit level. -/
theorem lvlSub_decomp (l : Chars) (su se : Option Chars) (h : lvlSub l = some (su, se)) :
    l = optD su ++ optD se ∧ (∀ x, su = some x → x.length = 3) ∧
      ∀ x, se = some x → x.length = 6 := by
  unfold lvlSub at h
  split at h
  · rename_i su0 rest heq
    split at h
    · rename_i se0 heq2
      simp only [Option.some_inj, Prod.mk.injEq] at h
      obtain ⟨h1, h2⟩ := h
      subst h1
      subst h2
      obtain ⟨hd, hl⟩ := matchSub_decomp l su0 rest heq
      obtain ⟨hd2, hl2⟩ := lvlSerial_decomp rest se0 heq2
      refine ⟨?_, ?_, hl2⟩
      · rw [hd, hd2]
        simp [optD]
      · intro x hx
        rw [Option.some_inj.mp hx] at hl
        exact hl
    · split at h
      · rename_i se0 heq3
        simp only [Option.some_inj, Prod.mk.injEq] at h
        obtain ⟨h1, h2⟩ := h
        subst h1
        subst h2
        obtain ⟨hd3, hl3⟩ := lvlSerial_decomp l se0 heq3
        exact ⟨by rw [hd3]; simp [optD], fun x hx => Option.noConfusion hx, hl3⟩
      · exact Option.noConfusion h
  · split at h
    · rename_i se0 heq3
      simp only [Option.some_inj, Prod.mk.injEq] at h
      obtain ⟨h1, h2⟩ := h
      subst h1
      subst h2
      obtain ⟨hd3, hl3⟩ := lvlSerial_decomp l se0 heq3
      exact ⟨by rw [hd3]; simp [optD], fun x hx => Option.noConfusion hx, hl3⟩
    · exact Option.noConfusion h

/-- Decomposition through the station level. -/
theorem lvlStation_decomp (l : Chars) (st : Chars) (su se : Option Chars)
    (h : lvlStation l = some (st, su, se)) :
    l = st ++ optD su ++ optD se ∧ st.length = 3 ∧
      (∀ x, su = some x → x.length = 3) ∧ ∀ x, se = some x → x.length = 6 := by
  unfold lvlStation at h
  split at h
  · rename_i st0 rest heq
    split at h
    · rename_i su0 se0 heq2
      simp only [Option.some_inj, Prod.mk.injEq] at h
      obtain ⟨h1, h2, h3⟩ := h
      subst h1
      subst h2
      subst h3
      obtain ⟨hd, hl⟩ := matchStation_decomp l st0 rest heq
      obtain ⟨hd2, hsu, hse⟩ := lvlSub_decomp rest su0 se0 heq2
      refine ⟨?_, hl, hsu, hse⟩
      rw [hd, hd2]
      simp
    · exact Option.noConfusion h
  · exact Option.noConfusion h

/-- Decomposition through the district level. -/
theorem lvlDistrito_decomp (l : Chars) (di : Option Chars) (st : Chars) (su se : Option Chars)
    (h : lvlDistrito l = some (di, st, su, se)) :
    l = optD di ++ st ++ optD su ++ optD se ∧ (∀ x, di = some x → x.length = 3) ∧
      st.length = 3 ∧ (∀ x, su = some x → x.length = 3) ∧
      ∀ x, se = some x → x.length = 6 := by
  unfold lvlDistrito at h
  split at h
  · rename_i di0 rest heq
    split at h
    · rename_i st0 su0 se0 heq2
      simp only [Option.some_inj, Prod.mk.injEq] at h
      obtain ⟨h1, h2, h3, h4⟩ := h
      subst h1
      subst h2
      subst h3
      subst h4
      obtain ⟨hd, hl⟩ := matchDistrito_decomp l di0 rest heq
      obtain ⟨hd2, hst, hsu, hse⟩ := lvlStation_decomp rest st0 su0 se0 heq2
      refine ⟨?_, ?_, hst, hsu, hse⟩
      · rw [hd, hd2]
        simp [optD]
      · intro x hx
        rw [Option.some_inj.mp hx] at hl
        exact hl
    · split at h
      · rename_i st0 su0 se0 heq3
        simp only [Option.some_inj, Prod.mk.injEq] at h
        obtain ⟨h1, h2, h3, h4⟩ := h
        subst h1
        subst h2
        subst h3
        subst h4
        obtain ⟨hd3, hst, hsu, hse⟩ := lvlStation_decomp l st0 su0 se0 heq3
        exact ⟨by rw [hd3]; simp [optD], fun x hx => Option.noConfusion hx, hst, hsu, hse⟩
      · exact Option.noConfusion h
  · split at h
    · rename_i st0 su0 se0 heq3
      simp only [Option.some_inj, Prod.mk.injEq] at h
      obtain ⟨h1, h2, h3, h4⟩ := h
      subst h1
      subst h2
      subst h3
      subst h4
      obtain ⟨hd3, hst, hsu, hse⟩ := lvlStation_decomp l st0 su0 se0 heq3
      exact ⟨by rw [hd3]; simp [optD], fun x hx => Option.noConfusion hx, hst, hsu, hse⟩
    · exact Option.noConfusion h

/-- Decomposition through the model level. -/
theorem lvlModelo_decomp (l : Chars) (mo di : Option Chars) (st : Chars) (su se : Option Chars)
    (h : lvlModelo l = some (mo, di, st, su, se)) :
    l = optD mo ++ optD di ++ st ++ optD su ++ optD se ∧
      (∀ x, mo = some x → x.length = 5) ∧ (∀ x, di = some x → x.length = 3) ∧
      st.length = 3 ∧ (∀ x, su = some x → x.length = 3) ∧
      ∀ x, se = some x → x.length = 6 := by
  unfold lvlModelo at h
  split at h
  · rename_i mo0 rest heq
    split at h
    · rename_i di0 st0 su0 se0 heq2
      simp only [Option.some_inj, Prod.mk.injEq] at h
      obtain ⟨h1, h2, h3, h4, h5⟩ := h
      subst h1
      subst h2
      subst h3
      subst h4
      subst h5
      obtain ⟨hd, hl⟩ := matchModelo_decomp l mo0 rest heq
      obtain ⟨hd2, hdi, hst, hsu, hse⟩ := lvlDistrito_decomp rest di0 st0 su0 se0 heq2
      refine ⟨?_, ?_, hdi, hst, hsu, hse⟩
      · rw [hd, hd2]
        simp [optD]
      · intro x hx
        rw [Option.some_inj.mp hx] at hl
        exact hl
    · split at h
      · rename_i di0 st0 su0 se0 heq3
        simp only [Option.some_inj, Prod.mk.injEq] at h
        obtain ⟨h1, h2, h3, h4, h5⟩ := h
        subst h1
        subst h2
        subst h3
        subst h4
        subst h5
        obtain ⟨hd3, hdi, hst, hsu, hse⟩ := lvlDistrito_decomp l di0 st0 su0 se0 heq3
        exact ⟨by rw [hd3]; simp [optD], fun x hx => Option.noConfusion hx, hdi, hst, hsu, hse⟩
      · exact Option.noConfusion h
  · split at h
    · rename_i di0 st0 su0 se0 heq3
      simp only [Option.some_inj, Prod.mk.injEq] at h
      obtain ⟨h1, h2, h3, h4, h5⟩ := h
      subst h1
      subst h2
      subst h3
      subst h4
      subst h5
      obtain ⟨hd3, hdi, hst, hsu, hse⟩ := lvlDistrito_decomp l di0 st0 su0 se0 heq3
      exact ⟨by rw [hd3]; simp [optD], fun x hx => Option.noConfusion hx, hdi, hst, hsu, hse⟩
    · exact Option.noConfusion h

/-- Decomposition through the unit level. -/
theorem lvlUnidad_decomp (l : Chars) (u mo di : Option Chars) (st : Chars)
    (su se : Option Chars) (h : lvlUnidad l = some (u, mo, di, st, su, se)) :
    l = optD u ++ optD mo ++ optD di ++ st ++ optD su ++ optD se ∧
      (∀ x, u = some x → x.length = 5) ∧ (∀ x, mo = some x → x.length = 5) ∧
      (∀ x, di = some x → x.length = 3) ∧ st.length = 3 ∧
      (∀ x, su = some x → x.length = 3) ∧ ∀ x, se = some x → x.length = 6 := by
  unfold lvlUnidad at h
  split at h
  · rename_i u0 rest heq
    split at h
    · rename_i mo0 di0 st0 su0 se0 heq2
      simp only [Option.some_inj, Prod.mk.injEq] at h
      obtain ⟨h1, h2, h3, h4, h5, h6⟩ := h
      subst h1
      subst h2
      subst h3
      subst h4
      subst h5
      subst h6
      obtain ⟨hd, hl⟩ := matchUnit_decomp l u0 rest heq
      obtain ⟨hd2, hmo, hdi, hst, hsu, hse⟩ := lvlModelo_decomp rest mo0 di0 st0 su0 se0 heq2
      refine ⟨?_, ?_, hmo, hdi, hst, hsu, hse⟩
      · rw [hd, hd2]
        simp [optD]
      · intro x hx
        rw [Option.some_inj.mp hx] at hl
        exact hl
    · split at h
      · rename_i mo0 di0 st0 su0 se0 heq3
        simp only [Option.some_inj, Prod.mk.injEq] at h
        obtain ⟨h1, h2, h3, h4, h5, h6⟩ := h
        subst h1
        subst h2
        subst h3
        subst h4
        subst h5
        subst h6
        obtain ⟨hd3, hmo, hdi, hst, hsu, hse⟩ := lvlModelo_decomp l mo0 di0 st0 su0 se0 heq3
        exact ⟨by rw [hd3]; simp [optD], fun x hx => Option.noConfusion hx,
          hmo, hdi, hst, hsu, hse⟩
      · exact Option.noConfusion h
  · split at h
    · rename_i mo0 di0 st0 su0 se0 heq3
      simp only [Option.some_inj, Prod.mk.injEq] at h
      obtain ⟨h1, h2, h3, h4, h5, h6⟩ := h
      subst h1
      subst h2
      subst h3
      subst h4
      subst h5
      subst h6
      obtain ⟨hd3, hmo, hdi, hst, hsu, hse⟩ := lvlModelo_decomp l mo0 di0 st0 su0 se0 heq3
      exact ⟨by rw [hd3]; simp [optD], fun x hx => Option.noConfusion hx,
        hmo, hdi, hst, hsu, hse⟩
    · exact Option.noConfusion h

/-- Decomposition of a successful long-grammar match: the capture groups
concatenate, in grammar order, to the matched string, with their grammar
widths. -/
theorem longMatch_decomp (l : Chars) (g : LongGroups) (h : longMatch l = some g) :
    l = optD g.unidad ++ optD g.modelo ++ optD g.distrito ++ g.estacion ++
        optD g.cai ++ optD g.cuadrante ∧
      g.estacion.length = 3 ∧ (∀ x, g.cai = some x → x.length = 3) ∧
      (∀ x, g.unidad = some x → x.length = 5) ∧ (∀ x, g.modelo = some x → x.length = 5) ∧
      (∀ x, g.distrito = some x → x.length = 3) ∧
      ∀ x, g.cuadrante = some x → x.length = 6 := by
  unfold longMatch at h
  rcases hu : lvlUnidad l with _ | t
  · rw [hu] at h
    exact Option.noConfusion h
  · rw [hu] at h
    obtain ⟨u, mo, di, st, su, se⟩ := t
    simp only [Option.map_some'] at h
    rw [← Option.some_inj.mp h]
    obtain ⟨hd, hu5, hm5, hd3, hst3, hsu3, hse6⟩ := lvlUnidad_decomp l u mo di st su se hu
    exact ⟨hd, hst3, hsu3, hu5, hm5, hd3, hse6⟩

/-- Inversion of a successful short-grammar match. -/
theorem shortMatch_decomp (l st : Chars) (cai : Option Chars)
    (h : shortMatch l = some (st, cai)) :
    (cai = none ∧ l = st ∧ st.length = 3) ∨
      ∃ c, cai = some c ∧ l = st ++ c ∧ st.length = 3 ∧ c.length = 3 := by
  unfold shortMatch at h
  split at h
  · split at h
    · simp only [Option.some_inj, Prod.mk.injEq] at h
      obtain ⟨h1, h2⟩ := h
      subst h1
      exact Or.inl ⟨h2.symm, rfl, rfl⟩
    · exact Option.noConfusion h
  · split at h
    · simp only [Option.some_inj, Prod.mk.injEq] at h
      obtain ⟨h1, h2⟩ := h
      subst h1
      exact Or.inr ⟨_, h2.symm, rfl, rfl, rfl⟩
    · exact Option.noConfusion h
  · exact Option.noConfusion h

/-- The length of an optional capture group with a known width. -/
theorem optD_length (o : Option Chars) (k : Nat) (h : ∀ x, o = some x → x.length = k) :
    (optD o).length = 0 ∨ (optD o).length = k := by
  cases o with
  | none => exact Or.inl rfl
  | some x => exact Or.inr (by simpa [optD] using h x rfl)

/-- C4: on a code matched by the long grammar with both a station and a
subunit capture, `parseSIVICCCode` returns a record whose `estacionCAI`
field is exactly the concatenation of the station and subunit substrings,
and that concatenation occurs verbatim inside the normalized code. -/
theorem C4_estacionCAI_is_station_subunit_concat (code : Chars) (g : LongGroups) (su : Chars)
    (hlong : longMatch (normalizeCode code) = some g)
    (hcai : g.cai = some su) :
    (∃ p, parseSIVICCCode code = some p ∧ p.estacionCAI = some (g.estacion ++ su)) ∧
    ∃ pre post, normalizeCode code = pre ++ (g.estacion ++ su) ++ post := by
  obtain ⟨hdec, hst3, hcai3, hu5, hm5, hd3, hse6⟩ := longMatch_decomp _ _ hlong
  have hsu3 : su.length = 3 := hcai3 su hcai
  have hsub : ∃ pre post, normalizeCode code = pre ++ (g.estacion ++ su) ++ post := by
    refine ⟨optD g.unidad ++ optD g.modelo ++ optD g.distrito, optD g.cuadrante, ?_⟩
    rw [hdec, hcai]
    simp [optD]
  refine ⟨?_, hsub⟩
  have hcode : code ≠ [] := by
    intro h0
    rw [h0] at hlong
    have hnone : longMatch (normalizeCode []) = none := rfl
    rw [hnone] at hlong
    exact Option.noConfusion hlong
  unfold parseSIVICCCode
  rw [if_neg hcode]
  cases hshort : shortMatch (normalizeCode code) with
  | none =>
    rw [hlong]
    refine ⟨_, rfl, ?_⟩
    rw [hcai]
    rfl
  | some pr =>
    obtain ⟨st, cai⟩ := pr
    have hu := optD_length g.unidad 5 hu5
    have hm := optD_length g.modelo 5 hm5
    have hd := optD_length g.distrito 3 hd3
    have hs := optD_length g.cuadrante 6 hse6
    have hlen : (normalizeCode code).length =
        (optD g.unidad).length + (optD g.modelo).length + (optD g.distrito).length +
          3 + 3 + (optD g.cuadrante).length := by
      rw [hdec, hcai]
      simp [optD, hst3, hsu3]
      omega
    rcases shortMatch_decomp _ _ _ hshort with ⟨hc, hl, h3⟩ | ⟨c, hc, hl, h3, hc3⟩
    · exfalso
      rw [hl] at hlen
      rw [h3] at hlen
      omega
    · have hzero : (optD g.unidad).length = 0 ∧ (optD g.modelo).length = 0 ∧
          (optD g.distrito).length = 0 ∧ (optD g.cuadrante).length = 0 := by
        have hlen6 : (normalizeCode code).length = 6 := by
          rw [hl]
          simp [List.length_append, h3, hc3]
        omega
      have hz1 : optD g.unidad = [] := List.length_eq_zero.mp hzero.1
      have hz2 : optD g.modelo = [] := List.length_eq_zero.mp hzero.2.1
      have hz3 : optD g.distrito = [] := List.length_eq_zero.mp hzero.2.2.1
      have hz4 : optD g.cuadrante = [] := List.length_eq_zero.mp hzero.2.2.2
      have hn : normalizeCode code = g.estacion ++ su := by
        rw [hdec, hcai, hz1, hz2, hz3, hz4]
        simp [optD]
      refine ⟨_, rfl, ?_⟩
      simp only
      rw [hn]

/-- Witness for C4 at the report's example code
`MEBOGMNVCCC01E15C02000033`: `estacionCAI` is `E15C02`. -/
theorem C4_estacionCAI_is_station_subunit_concat_witness :
    (∃ p, parseSIVICCCode ("MEBOGMNVCCC01E15C02000033".data) = some p ∧
        p.estacionCAI = some ("E15".data ++ "C02".data)) ∧
    ∃ pre post, normalizeCode ("MEBOGMNVCCC01E15C02000033".data)
        = pre ++ ("E15".data ++ "C02".data) ++ post :=
  C4_estacionCAI_is_station_subunit_concat ("MEBOGMNVCCC01E15C02000033".data)
    ⟨some ("MEBOG".data), some ("MNVCC".data), some ("C01".data), "E15".data,
      some ("C02".data), some ("000033".data)⟩ ("C02".data) (by decide) (by decide)
